import Mathlib

/-!
Verification development for the geocoding service in `api.py`.

The Python source is shallowly embedded as executable Lean definitions:

* coordinates are modelled as rationals (`ℚ`); the regexes involved only ever
  match strings of the form `-?\d+\.\d+` whose `float(...)` value is exact,
  so the rational value of the matched digits is the faithful semantics
  (digit classes are modelled as ASCII digits; Python `\d` additionally
  accepts non-ASCII Unicode decimal digits, which no claim depends on);
* each regular expression used by the code is transliterated into a list of
  tokens (`Tok`) interpreted by `runToks`. The interpreter uses maximal munch
  for the `+`-classes, which coincides with Python backtracking semantics for
  every pattern below: in each pattern, every greedy class is immediately
  followed by a character that is outside that class, so giving characters
  back can never create a match that maximal munch misses;
* `re.search` / `re.findall(...)[0]` (only the first match is consumed by the
  code) are modelled by `searchAux`, which tries the pattern at each start
  position from the left, exactly like `re.search`;
* network calls are modelled as explicit `Except`-valued inputs: an `.error`
  value stands for a raised `requests` exception, an `.ok` value for the
  response data actually consumed by the code;
* the pandas data frame is modelled as a list of rows, each row an ordered
  association list of column name to cell. `df[c] = None` overwrites the
  column in place when it exists and appends it otherwise, which is what
  `setCol` does; `df.at[idx, c] = v` on an existing column is the same
  `setCol`.
-/

set_option linter.unusedVariables false

/-- Digit run to a natural number, most significant digit first. -/
def digitsToNat (ds : List Char) : Nat :=
  ds.foldl (fun n c => 10 * n + (c.toNat - ('0').toNat)) 0

/-- Value of the decimal literal `ip.fp` (both digit runs), as a rational.
This is the exact value of `float("ip.fp")` for the short digit strings the
patterns produce. -/
def decValue (ip fp : List Char) : ℚ :=
  mkRat (Int.ofNat (digitsToNat ip * 10 ^ fp.length + digitsToNat fp))
    (10 ^ fp.length)

/-- Match the regex fragment `\d+\.\d+` at the head of the input; returns the
value and the remaining input. -/
def matchUDecimal (cs : List Char) : Option (ℚ × List Char) :=
  let ip := cs.takeWhile Char.isDigit
  let r1 := cs.dropWhile Char.isDigit
  if ip.isEmpty then none
  else
    match r1 with
    | '.' :: t =>
      let fp := t.takeWhile Char.isDigit
      if fp.isEmpty then none
      else some (decValue ip fp, t.dropWhile Char.isDigit)
    | _ => none

/-- Match the regex fragment `-?\d+\.\d+` at the head of the input. -/
def matchDecimal (cs : List Char) : Option (ℚ × List Char) :=
  match cs with
  | '-' :: t => (matchUDecimal t).map (fun p => (-p.1, p.2))
  | _ => matchUDecimal cs

/-- Consume an exact literal token at the head of the input. -/
def stripToken : List Char → List Char → Option (List Char)
  | [], cs => some cs
  | _ :: _, [] => none
  | t :: ts, c :: cs => if c = t then stripToken ts cs else none

/-- Characters matched by the regex class `[-\w]` (ASCII reading of `\w`). -/
def wordChar (c : Char) : Bool :=
  c.isAlphanum || c = '_' || c = '-'

/-- One token of a transliterated regular expression. -/
inductive Tok where
  | lit (s : String)
  | digits
  | wordChars
  | num
  deriving DecidableEq

/-- Run a token list at the head of the input, collecting the values captured
by the `num` tokens (the `(-?\d+\.\d+)` groups). -/
def runToks : List Tok → List Char → Option (List ℚ × List Char)
  | [], cs => some ([], cs)
  | Tok.lit s :: ts, cs =>
    match stripToken s.toList cs with
    | none => none
    | some r => runToks ts r
  | Tok.digits :: ts, cs =>
    if (cs.takeWhile Char.isDigit).isEmpty then none
    else runToks ts (cs.dropWhile Char.isDigit)
  | Tok.wordChars :: ts, cs =>
    if (cs.takeWhile wordChar).isEmpty then none
    else runToks ts (cs.dropWhile wordChar)
  | Tok.num :: ts, cs =>
    match matchDecimal cs with
    | none => none
    | some (q, r) =>
      match runToks ts r with
      | none => none
      | some (qs, rest) => some (q :: qs, rest)

/-- Regex `@(-?\d+\.\d+),(-?\d+\.\d+)` (pattern 1 of `extract_lat_long`,
also the fourth HTML pattern). -/
def atSignToks : List Tok :=
  [Tok.lit ("@"), Tok.num, Tok.lit (","), Tok.num]

/-- Regex `!3d(-?\d+\.\d+)!4d(-?\d+\.\d+)` (pattern 2 of `extract_lat_long`,
also the fifth HTML pattern). -/
def bangToks : List Tok :=
  [Tok.lit ("!3d"), Tok.num, Tok.lit ("!4d"), Tok.num]

/-- Regex `\[\d+,"[-\w]+",\d+,\d+,null,null,(-?\d+\.\d+),(-?\d+\.\d+)\]`
(first HTML pattern). -/
def jsonToks : List Tok :=
  [Tok.lit ("["), Tok.digits, Tok.lit (",\""), Tok.wordChars, Tok.lit ("\","),
   Tok.digits, Tok.lit (","), Tok.digits, Tok.lit (",null,null,"),
   Tok.num, Tok.lit (","), Tok.num, Tok.lit ("]")]

/-- Regex `"(-?\d+\.\d+),(-?\d+\.\d+)"` (second HTML pattern). -/
def quotedToks : List Tok :=
  [Tok.lit ("\""), Tok.num, Tok.lit (","), Tok.num, Tok.lit ("\"")]

/-- Regex `center=(-?\d+\.\d+),(-?\d+\.\d+)` (third HTML pattern). -/
def centerToks : List Tok :=
  [Tok.lit ("center="), Tok.num, Tok.lit (","), Tok.num]

/-- Match a two-capture pattern at the head of the input. -/
def matchToks (ts : List Tok) (cs : List Char) : Option (ℚ × ℚ) :=
  match runToks ts cs with
  | some (la :: lo :: _, _) => some (la, lo)
  | _ => none

/-- The semantics of `re.search`: try the matcher at every start position from
the left and return the first success. -/
def searchAux {α : Type} (m : List Char → Option α) : List Char → Option α
  | [] => m []
  | c :: cs =>
    match m (c :: cs) with
    | some r => some r
    | none => searchAux m cs

/-- Lines 36-57 of api.py: extract latitude and longitude from a Google Maps
URL. Pattern `@lat,lng` first, then `!3dlat!4dlng`; no range validation. -/
def extract_lat_long (url : String) : Option ℚ × Option ℚ :=
  match searchAux (matchToks atSignToks) url.toList with
  | some (la, lo) => (some la, some lo)
  | none =>
    match searchAux (matchToks bangToks) url.toList with
    | some (la, lo) => (some la, some lo)
    | none => (none, none)

/-- The five HTML patterns of `extract_lat_long_from_html`, in source order. -/
def htmlPatterns : List (List Tok) :=
  [jsonToks, quotedToks, centerToks, atSignToks, bangToks]

/-- Range validation at line 78 of api.py:
`-90 <= lat <= 90 and -180 <= lng <= 180`. -/
def inRange (la lo : ℚ) : Bool :=
  (-90 ≤ la && la ≤ 90) && (-180 ≤ lo && lo ≤ 180)

/-- The pattern loop of `extract_lat_long_from_html` (lines 71-81): for each
pattern in order, take the first match; if it passes the range check, return
it, otherwise move on to the next pattern. The `float` conversion of a
`-?\d+\.\d+` match never raises, so the `except ValueError: continue` branch
is dead and the numeric value is produced directly by the matcher. -/
def tryPatterns : List (List Tok) → List Char → Option ℚ × Option ℚ
  | [], _ => (none, none)
  | ts :: rest, cs =>
    match searchAux (matchToks ts) cs with
    | some (la, lo) =>
      if inRange la lo then (some la, some lo) else tryPatterns rest cs
    | none => tryPatterns rest cs

/-- Lines 59-83 of api.py: extract coordinates from Google Maps HTML. -/
def extract_lat_long_from_html (html : String) : Option ℚ × Option ℚ :=
  tryPatterns htmlPatterns html.toList

/-- Lines 85-109 of api.py. The network interaction of `requests.get` is an
explicit input: `.error e` is a raised exception rendered by `str(e)`,
`.ok (url, html)` is the final redirected `response.url` and `response.text`.
The `address` argument only feeds the search URL, which the extraction result
does not depend on. -/
def get_coordinates (address : String)
    (response : Except String (String × String)) :
    Option ℚ × Option ℚ × String :=
  match response with
  | .error e => (none, none, e)
  | .ok (url, html) =>
    let p := extract_lat_long url
    if p.1.isNone || p.2.isNone then
      let q := extract_lat_long_from_html html
      (q.1, q.2, url)
    else (p.1, p.2, url)

/-! Reverse geocoder (lines 111-201 of api.py). The two coordinates are
modelled by their decimal string rendering, because
`get_address_from_coordinates` only ever interpolates them into strings
and forwards them to the upstream services. -/

/-- The address components consumed by lines 141-175 of api.py; `none` models
a key absent from the Nominatim `address` object. -/
structure AddrComponents where
  building : Option String
  house_number : Option String
  road : Option String
  neighbourhood : Option String
  suburb : Option String
  city : Option String
  town : Option String
  village : Option String
  postcode : Option String
  state : Option String
  country : Option String
  deriving DecidableEq

/-- Python truthiness of `addr.get(key)`: a missing key or an empty string is
falsy, any other string is truthy. -/
def tstr : Option String → Option String
  | some s => if s = "" then none else some s
  | none => none

/-- One `if addr.get(a): append` block. -/
def pick1 (o : Option String) : List String :=
  match tstr o with
  | some s => [s]
  | none => []

/-- One `if addr.get(a): append / elif addr.get(b): append` block. -/
def pick2 (o1 o2 : Option String) : List String :=
  match tstr o1 with
  | some s => [s]
  | none => pick1 o2

/-- One `if / elif / elif` block, as for city, town, village. -/
def pick3 (o1 o2 o3 : Option String) : List String :=
  match tstr o1 with
  | some s => [s]
  | none => pick2 o2 o3

/-- The `formatted_parts` list built at lines 138-175 of api.py. -/
def formatted_parts (a : AddrComponents) : List String :=
  pick2 a.building a.house_number ++ pick2 a.road a.neighbourhood ++
  pick1 a.suburb ++ pick3 a.city a.town a.village ++
  pick1 a.postcode ++ pick1 a.state ++ pick1 a.country

/-- Line 177 of api.py: the formatted address is the comma-separated join of
`formatted_parts` when that list is non-empty, and otherwise the raw
`display_name` (bound to the local variable `address` in the code). -/
def formatted_address (a : AddrComponents) (display_name : String) : String :=
  let parts := formatted_parts a
  if parts = [] then display_name else String.intercalate (", ") parts

/-- Spec-side restatement of the Address Formatter: groups in fixed priority
order, the first present component of each group is kept. -/
def groupPick : List (Option String) → Option String
  | [] => none
  | o :: os =>
    match tstr o with
    | some s => some s
    | none => groupPick os

/-- Spec-side list of component groups in priority order: (building OR
house_number), (road OR neighbourhood), suburb, (city OR town OR village),
postcode, state, country. -/
def specGroups (a : AddrComponents) : List (List (Option String)) :=
  [[a.building, a.house_number], [a.road, a.neighbourhood], [a.suburb],
   [a.city, a.town, a.village], [a.postcode], [a.state], [a.country]]

/-- Spec-side Address Formatter: join the first present component of each
group with a comma separator, falling back to the raw display name. -/
def formatted_address_spec (a : AddrComponents) (display_name : String) : String :=
  let parts := (specGroups a).filterMap groupPick
  if parts = [] then display_name else String.intercalate (", ") parts

/-- The data the code reads out of the Nominatim response: its HTTP status,
whether `display_name` is present (and its value), and the `address` object.
A response whose body is not valid JSON is modelled as a raised exception
(`.error`) of the surrounding request, since `response.json()` raises. -/
structure NominatimResp where
  status_code : Nat
  display_name : Option String
  address : AddrComponents
  deriving DecidableEq

/-- The upstream interactions of `get_address_from_coordinates`. Each field is
`.error e` when the request raises and `.ok` with the consumed data otherwise;
for the Google Maps place fetch the code only reads the resolved final URL. -/
structure ReverseEnv where
  nominatim : Except String NominatimResp
  place : Except String String

/-- Line 179 and 184 of api.py: the synthesized Google Maps place URL. -/
def synthUrl (latS lngS : String) : String :=
  "https://www.google.com/maps/place/" ++ latS ++ "," ++ lngS

/-- Lines 198 and 201 of api.py: the synthesized placeholder triple, returned
both by the in-line fallback and by the `except` handler. -/
def fallbackTriple (latS lngS : String) : String × String × String :=
  (latS ++ ", " ++ lngS, "Location at " ++ latS ++ ", " ++ lngS,
   synthUrl latS lngS)

/-- Regex `/place/([^/@]+)/@` at a fixed start position (line 191 of api.py). -/
def placeNameAt (cs : List Char) : Option (List Char) :=
  match stripToken ("/place/").toList cs with
  | none => none
  | some r =>
    let nm := r.takeWhile (fun c => !(c = '/' || c = '@'))
    let r2 := r.dropWhile (fun c => !(c = '/' || c = '@'))
    if nm.isEmpty then none
    else
      match r2 with
      | '/' :: '@' :: _ => some nm
      | _ => none

/-- Line 193 of api.py: `address.replace('+', ' ')`. -/
def plusToSpace (cs : List Char) : List Char :=
  cs.map (fun c => if c = '+' then ' ' else c)

/-- Hexadecimal digit value, as used by percent-decoding. -/
def hexDigitVal (c : Char) : Option Nat :=
  if c.isDigit then some (c.toNat - ('0').toNat)
  else if 'a' ≤ c && c ≤ 'f' then some (c.toNat - ('a').toNat + 10)
  else if 'A' ≤ c && c ≤ 'F' then some (c.toNat - ('A').toNat + 10)
  else none

/-- Line 194 of api.py, `urllib.parse.unquote`: percent-escapes are decoded,
invalid escapes are left untouched. Multi-byte UTF-8 escape sequences are
decoded bytewise here, where Python would combine them into one character;
no claim depends on non-ASCII escapes. -/
def percentDecode : List Char → List Char
  | '%' :: h1 :: h2 :: rest =>
    match hexDigitVal h1, hexDigitVal h2 with
    | some a, some b => Char.ofNat (16 * a + b) :: percentDecode rest
    | _, _ => '%' :: percentDecode (h1 :: h2 :: rest)
  | c :: rest => c :: percentDecode rest
  | [] => []

/-- Lines 183-198 of api.py: the Google Maps place-page fallback, reached when
the Nominatim step produced nothing. -/
def placeStep (latS lngS : String) (place : Except String String) :
    String × String × String :=
  match place with
  | .error _ => fallbackTriple latS lngS
  | .ok resolved =>
    match searchAux placeNameAt resolved.toList with
    | some nm =>
      let s := String.mk (percentDecode (plusToSpace nm))
      (s, s, resolved)
    | none => fallbackTriple latS lngS

/-- Lines 111-201 of api.py: reverse geocoding. Returns
`(address, formatted_address, google_maps_url)`; every raised exception along
the way lands in the `except` handler, which returns the placeholder triple. -/
def get_address_from_coordinates (latS lngS : String) (env : ReverseEnv) :
    String × String × String :=
  match env.nominatim with
  | .error _ => fallbackTriple latS lngS
  | .ok resp =>
    if resp.status_code = 200 then
      match resp.display_name with
      | some dn => (dn, formatted_address resp.address dn, synthUrl latS lngS)
      | none => placeStep latS lngS env.place
    else placeStep latS lngS env.place

/-- The shared body of the two `/reverse-geocode` handlers (lines 305-360 of
api.py): the result is injected into an optional value and the handler tests
`address is not None`; since `get_address_from_coordinates` returns a string
on every path, the injection is always `some` and the 404 branch is dead. -/
def reverse_geocode_endpoint (latS lngS : String) (env : ReverseEnv) :
    Nat × String :=
  match some (get_address_from_coordinates latS lngS env).1 with
  | some a => (200, a)
  | none => (404, "Could not extract address")

/-! Batch processing (lines 362-560 of api.py). A data frame is a list of
rows; each row is an ordered association list of column name to cell, with
pandas-unique column names in realistic frames. The per-row geocoder calls
are abstracted as oracle functions, since their values depend on the network
responses of each individual request. -/

/-- One cell of the tabular dataset: missing (`NaN`, which `pd.notna`
rejects), a string, or a number. -/
inductive Cell where
  | na
  | str (s : String)
  | num (q : ℚ)
  deriving DecidableEq

/-- A row of the data frame, in column order. -/
abbrev Row := List (String × Cell)

/-- Python `pd.notna`. -/
def notna : Cell → Bool
  | .na => false
  | _ => true

/-- Python `str(cell)` for the values that can reach it. The exact rendering
of a number is irrelevant to every claim; it only needs to be non-blank. -/
def cellStr : Cell → String
  | .na => "nan"
  | .str s => s
  | .num q => toString q

/-- Python `str.strip()` with no argument: surrounding whitespace removed,
computed on the character list. -/
def stripWS (cs : List Char) : List Char :=
  ((cs.dropWhile Char.isWhitespace).reverse.dropWhile Char.isWhitespace).reverse

/-- The guard at line 421 of api.py:
`pd.notna(address) and str(address).strip()`; a row is processed when this is
true (a non-empty stripped string is truthy). -/
def notBlank (c : Cell) : Bool :=
  notna c && !((stripWS (cellStr c).toList).isEmpty)

/-- A source cell the forward batch loop skips: missing or blank. -/
def blankCell (c : Cell) : Bool :=
  !(notBlank c)

/-- Row lookup `row[c]`; callers only use it on validated columns. -/
def getCol : Row → String → Cell
  | [], _ => Cell.na
  | (n, v) :: rest, c => if n = c then v else getCol rest c

/-- Whether a column occurs in a row. -/
def hasCol : Row → String → Bool
  | [], _ => false
  | (n, _) :: rest, c => if n = c then true else hasCol rest c

/-- Overwrite every cell of an existing column, keeping its position. -/
def setColGo : Row → String → Cell → Row
  | [], _, _ => []
  | (n, w) :: rest, c, v =>
    if n = c then (n, v) :: setColGo rest c v
    else (n, w) :: setColGo rest c v

/-- Pandas column assignment `df[c] = v` restricted to one row (and also
`df.at[idx, c] = v`): overwrite the column in place when it exists, append it
at the end otherwise. -/
def setCol (r : Row) (c : String) (v : Cell) : Row :=
  if hasCol r c then setColGo r c v else r ++ [(c, v)]

/-- A returned optional coordinate as a cell (`None` stays `NaN`-like). -/
def optCell : Option ℚ → Cell
  | none => Cell.na
  | some q => Cell.num q

/-- Lines 413-414 of api.py: `df['latitude'] = None; df['longitude'] = None`,
per row. -/
def initForward (r : Row) : Row :=
  setCol (setCol r "latitude" Cell.na) "longitude" Cell.na

/-- Lines 418-430 of api.py: one iteration of the forward batch loop. `geo`
abstracts `get_coordinates` (the third component, the URL, is discarded by
the loop). -/
def forward_row (geo : String → Option ℚ × Option ℚ × String)
    (addrCol : String) (r : Row) : Row :=
  let address := getCol r addrCol
  if notBlank address then
    let res := geo (cellStr address)
    setCol (setCol r "latitude" (optCell res.1)) "longitude" (optCell res.2.1)
  else r

/-- Lines 412-430 of api.py: initialize the two derived columns on every row,
then run the loop row by row (each `df.at` update only touches its own row,
so the in-place loop is a map). -/
def processForward (geo : String → Option ℚ × Option ℚ × String)
    (addrCol : String) (rows : List Row) : List Row :=
  (rows.map initForward).map (forward_row geo addrCol)

/-- Value of the derived `latitude` cell of a processed forward row, as a
function of the original row. -/
def latOut (geo : String → Option ℚ × Option ℚ × String)
    (addrCol : String) (r0 : Row) : Cell :=
  if notBlank (getCol r0 addrCol) then
    optCell (geo (cellStr (getCol r0 addrCol))).1
  else Cell.na

/-- Value of the derived `longitude` cell of a processed forward row. -/
def lngOut (geo : String → Option ℚ × Option ℚ × String)
    (addrCol : String) (r0 : Row) : Cell :=
  if notBlank (getCol r0 addrCol) then
    optCell (geo (cellStr (getCol r0 addrCol))).2.1
  else Cell.na

/-- Python `float(...)` on the magnitude part: `\d*(\.\d*)?([eE][+-]?\d+)?`
with at least one mantissa digit, consuming the whole string. Non-finite
literals (`inf`, `nan`) and underscore digit grouping are outside the model,
since coordinates are rationals. -/
def parseExpTail (v : ℚ) : List Char → Option ℚ
  | [] => some v
  | c :: t =>
    if c = 'e' || c = 'E' then
      let st : (ℤ × List Char) :=
        match t with
        | '+' :: u => (1, u)
        | '-' :: u => (-1, u)
        | _ => (1, t)
      let ds := st.2.takeWhile Char.isDigit
      let r := st.2.dropWhile Char.isDigit
      if ds.isEmpty then none
      else if r.isEmpty then
        some (v * (10 : ℚ) ^ (st.1 * (Int.ofNat (digitsToNat ds))))
      else none
    else none

/-- Unsigned part of a Python float literal. -/
def parseFloatMag (cs : List Char) : Option ℚ :=
  let ip := cs.takeWhile Char.isDigit
  let r1 := cs.dropWhile Char.isDigit
  match r1 with
  | '.' :: t =>
    let fp := t.takeWhile Char.isDigit
    let r2 := t.dropWhile Char.isDigit
    if ip.isEmpty && fp.isEmpty then none
    else parseExpTail (decValue ip fp) r2
  | _ =>
    if ip.isEmpty then none else parseExpTail (decValue ip []) r1

/-- Python `float(s)` on a string: surrounding whitespace is stripped, an
optional sign precedes the magnitude; `None` models a raised `ValueError`. -/
def parseFloat (s : String) : Option ℚ :=
  match stripWS s.toList with
  | '+' :: t => parseFloatMag t
  | '-' :: t => (parseFloatMag t).map (fun q => -q)
  | cs => parseFloatMag cs

/-- Python `float(cell)` (line 525 of api.py): a number converts to itself, a
string is parsed, anything else raises `ValueError` (modelled as `.error`). -/
def tryFloatCell : Cell → Except String ℚ
  | .na => .error ("ValueError")
  | .num q => .ok q
  | .str s =>
    match parseFloat s with
    | some q => .ok q
    | none => .error ("ValueError")

/-- Whether a fallible step succeeded. -/
def isOkB : Except String ℚ → Bool
  | .ok _ => true
  | .error _ => false

/-- Line 515 of api.py: `df['address'] = None`, per row. -/
def initReverse (r : Row) : Row :=
  setCol r "address" Cell.na

/-- Lines 519-536 of api.py: one iteration of the reverse batch loop. `rev`
abstracts `get_address_from_coordinates` (only the first component, the
address, is kept). The `try` around the `float` conversions catches
`ValueError` and writes `None` into the address cell, so a parse failure
never escapes the loop body. -/
def reverse_row (rev : ℚ → ℚ → String) (latCol lngCol : String) (r : Row) :
    Row :=
  let lat := getCol r latCol
  let lng := getCol r lngCol
  if notna lat && notna lng then
    match tryFloatCell lat, tryFloatCell lng with
    | .ok lav, .ok lov => setCol r "address" (Cell.str (rev lav lov))
    | _, _ => setCol r "address" Cell.na
  else r

/-- Lines 514-536 of api.py: initialize the derived column, then the loop. -/
def processReverse (rev : ℚ → ℚ → String) (latCol lngCol : String)
    (rows : List Row) : List Row :=
  (rows.map initReverse).map (reverse_row rev latCol lngCol)

/-- Value of the derived `address` cell of a processed reverse row, as a
function of the original row. -/
def addrOut (rev : ℚ → ℚ → String) (latCol lngCol : String) (r0 : Row) :
    Cell :=
  let lat := getCol r0 latCol
  let lng := getCol r0 lngCol
  if notna lat && notna lng then
    match tryFloatCell lat, tryFloatCell lng with
    | .ok lav, .ok lov => Cell.str (rev lav lov)
    | _, _ => Cell.na
  else Cell.na

/-! The two file endpoints (lines 362-560 of api.py). The filesystem steps
(saving the upload, writing the CSV, removing the temporary file) carry no
claim-relevant data and are elided; reading the data frame is an explicit
`Except`-valued input (`.error` standing for a raised parsing exception).
The endpoint result is `.ok rows` for a successful file response and
`.error (status, detail)` for an HTTP error response. -/

/-- A Python exception as observed by the `except Exception` handler. -/
inductive PyExc where
  | http (status : Nat) (detail : String)
  | err (msg : String)

/-- Python `str(e)`: for a starlette `HTTPException` this renders as
`"{status_code}: {detail}"`, for other exceptions the message itself. -/
def strOfExc : PyExc → String
  | .http s d => toString s ++ ": " ++ d
  | .err m => m

/-- The detail string of lines 407-410 and 502-512 of api.py. -/
def columnMissingDetail (col : String) (cols : List String) : String :=
  "Column '" ++ col ++ "' not found. Available columns: " ++
    String.intercalate (", ") cols

/-- Line 387 of api.py: accepted upload extensions. -/
def allowedExts : List String := [".csv", ".xlsx", ".xls"]

/-- Lines 362-454 of api.py, `/geocode-file`. The extension check happens
before the `try` block, so its 400 response is returned as such. The column
check raises its `HTTPException` inside the `try` block, where the
`except Exception` handler catches it (starlette `HTTPException` subclasses
`Exception`) and re-raises it as a 500 wrapping `str(e)`. -/
def geocode_file (file_ext : String)
    (readFile : Except String (List String × List Row))
    (address_column : String) (geo : String → Option ℚ × Option ℚ × String) :
    Except (Nat × String) (List Row) :=
  if !(allowedExts.contains file_ext) then
    .error (400, "Only CSV and Excel files are supported")
  else
    let body : Except PyExc (List Row) :=
      match readFile with
      | .error m => .error (.err m)
      | .ok (cols, rows) =>
        if address_column ∈ cols then
          .ok (processForward geo address_column rows)
        else .error (.http 400 (columnMissingDetail address_column cols))
    match body with
    | .ok out => .ok out
    | .error e => .error (500, "Error processing file: " ++ strOfExc e)

/-- Lines 456-560 of api.py, `/reverse-geocode-file`: same shape, with the
latitude column validated before the longitude column. -/
def reverse_geocode_file (file_ext : String)
    (readFile : Except String (List String × List Row))
    (lat_column long_column : String) (rev : ℚ → ℚ → String) :
    Except (Nat × String) (List Row) :=
  if !(allowedExts.contains file_ext) then
    .error (400, "Only CSV and Excel files are supported")
  else
    let body : Except PyExc (List Row) :=
      match readFile with
      | .error m => .error (.err m)
      | .ok (cols, rows) =>
        if lat_column ∈ cols then
          if long_column ∈ cols then
            .ok (processReverse rev lat_column long_column rows)
          else .error (.http 400 (columnMissingDetail long_column cols))
        else .error (.http 400 (columnMissingDetail lat_column cols))
    match body with
    | .ok out => .ok out
    | .error e => .error (500, "Error processing file: " ++ strOfExc e)

/-! Spec-side restatement of the pattern ordering of the Coordinate
Extractor, used to settle the strict-order claim by refinement. -/

/-- First-defined choice between two optional results. -/
def orO (a b : Option (ℚ × ℚ)) : Option (ℚ × ℚ) :=
  match a with
  | some r => some r
  | none => b

/-- First match of a pattern, kept only when it passes range validation. -/
def validSearch (ts : List Tok) (cs : List Char) : Option (ℚ × ℚ) :=
  match searchAux (matchToks ts) cs with
  | some (la, lo) => if inRange la lo then some (la, lo) else none
  | none => none

/-- First pattern of the list whose first match passes validation. -/
def firstValid : List (List Tok) → List Char → Option (ℚ × ℚ)
  | [], _ => none
  | ts :: rest, cs => orO (validSearch ts cs) (firstValid rest cs)

/-- Spec-side extractor: against the URL, first the `@` pattern, then the
`!3d`/`!4d` pattern; only if neither matched, against the HTML body the five
listed patterns in order (embedded-JSON array, quoted pair, `center=`
parameter, `@` pattern, `!3d`/`!4d` pattern); the first success wins. -/
def specOrderedExtract (url html : List Char) : Option (ℚ × ℚ) :=
  orO (searchAux (matchToks atSignToks) url)
    (orO (searchAux (matchToks bangToks) url)
      (firstValid htmlPatterns html))

/-- A pair result as the Python-style `(lat, lng)` / `(None, None)` tuple. -/
def toPairOpt : Option (ℚ × ℚ) → Option ℚ × Option ℚ
  | some (la, lo) => (some la, some lo)
  | none => (none, none)

/-- The scenario of the never-fail claim: the Nominatim step yields nothing
usable (exception, non-200 status, or no `display_name`) and the place-page
step yields nothing usable (exception or no `/place/<name>/@` match). -/
def allUpstreamFail (env : ReverseEnv) : Bool :=
  (match env.nominatim with
   | .error _ => true
   | .ok resp => !(resp.status_code == 200 && resp.display_name.isSome)) &&
  (match env.place with
   | .error _ => true
   | .ok u => (searchAux placeNameAt u.toList).isNone)

/-! Helper lemmas. -/

theorem mem_dropWhile {a : Char} {p : Char → Bool} :
    ∀ {cs : List Char}, a ∈ cs.dropWhile p → a ∈ cs := by
  intro cs
  induction cs with
  | nil => simp [List.dropWhile]
  | cons c t ih =>
    intro h
    by_cases hp : p c
    · simp [List.dropWhile, hp] at h
      exact List.mem_cons_of_mem c (ih h)
    · simpa [List.dropWhile, hp] using h

theorem stripToken_mem :
    ∀ (ts cs r : List Char), stripToken ts cs = some r →
      ∀ {a : Char}, a ∈ r → a ∈ cs := by
  intro ts
  induction ts with
  | nil =>
    intro cs r h a ha
    simp [stripToken] at h
    exact h ▸ ha
  | cons t ts ih =>
    intro cs r h a ha
    cases cs with
    | nil => simp [stripToken] at h
    | cons c cs =>
      by_cases hc : c = t
      · simp [stripToken, hc] at h
        exact List.mem_cons_of_mem c (ih cs r h ha)
      · simp [stripToken, hc] at h

theorem matchUDecimal_dot {cs : List Char} {p : ℚ × List Char} :
    matchUDecimal cs = some p → '.' ∈ cs := by
  intro h
  simp only [matchUDecimal] at h
  split at h
  · exact absurd h (by simp)
  · split at h
    · next t heq => exact mem_dropWhile (heq ▸ List.mem_cons_self _ _)
    · exact absurd h (by simp)

theorem matchDecimal_dot {cs : List Char} {p : ℚ × List Char} :
    matchDecimal cs = some p → '.' ∈ cs := by
  intro h
  simp only [matchDecimal] at h
  split at h
  · next t =>
    cases hu : matchUDecimal t with
    | none => rw [hu] at h; exact absurd h (by simp)
    | some q => exact List.mem_cons_of_mem _ (matchUDecimal_dot hu)
  · exact matchUDecimal_dot h

theorem runToks_dot :
    ∀ (ts : List Tok), Tok.num ∈ ts →
      ∀ {cs : List Char} {res : List ℚ × List Char},
        runToks ts cs = some res → '.' ∈ cs := by
  intro ts
  induction ts with
  | nil => intro hm; exact absurd hm (by simp)
  | cons tok rest ih =>
    intro hm cs res h
    cases tok with
    | lit s =>
      have hm' : Tok.num ∈ rest := by
        cases List.mem_cons.mp hm with
        | inl he => exact absurd he (by simp)
        | inr hr => exact hr
      simp only [runToks] at h
      cases hst : stripToken s.toList cs with
      | none => rw [hst] at h; exact absurd h (by simp)
      | some r =>
        rw [hst] at h
        exact stripToken_mem _ _ _ hst (ih hm' h)
    | digits =>
      have hm' : Tok.num ∈ rest := by
        cases List.mem_cons.mp hm with
        | inl he => exact absurd he (by simp)
        | inr hr => exact hr
      simp only [runToks] at h
      split at h
      · exact absurd h (by simp)
      · exact mem_dropWhile (ih hm' h)
    | wordChars =>
      have hm' : Tok.num ∈ rest := by
        cases List.mem_cons.mp hm with
        | inl he => exact absurd he (by simp)
        | inr hr => exact hr
      simp only [runToks] at h
      split at h
      · exact absurd h (by simp)
      · exact mem_dropWhile (ih hm' h)
    | num =>
      simp only [runToks] at h
      cases hd : matchDecimal cs with
      | none => rw [hd] at h; exact absurd h (by simp)
      | some q => exact matchDecimal_dot hd

theorem matchToks_dot {ts : List Tok} (hts : Tok.num ∈ ts)
    {cs : List Char} {r : ℚ × ℚ} (h : matchToks ts cs = some r) :
    '.' ∈ cs := by
  simp only [matchToks] at h
  cases hr : runToks ts cs with
  | none => rw [hr] at h; exact absurd h (by simp)
  | some res => exact runToks_dot ts hts hr

theorem searchAux_dot {ts : List Tok} (hts : Tok.num ∈ ts) :
    ∀ {cs : List Char} {r : ℚ × ℚ},
      searchAux (matchToks ts) cs = some r → '.' ∈ cs := by
  intro cs
  induction cs with
  | nil =>
    intro r h
    simp only [searchAux] at h
    exact matchToks_dot hts h
  | cons c t ih =>
    intro r h
    simp only [searchAux] at h
    cases hm : matchToks ts (c :: t) with
    | some q => exact matchToks_dot hts hm
    | none =>
      rw [hm] at h
      exact List.mem_cons_of_mem c (ih h)

theorem searchAux_none_of_no_dot {ts : List Tok} (hts : Tok.num ∈ ts)
    {cs : List Char} (hnd : '.' ∉ cs) :
    searchAux (matchToks ts) cs = none := by
  cases h : searchAux (matchToks ts) cs with
  | none => rfl
  | some r => exact absurd (searchAux_dot hts h) hnd

theorem tryPatterns_none_of_no_dot :
    ∀ (L : List (List Tok)), (∀ ts ∈ L, Tok.num ∈ ts) →
      ∀ {cs : List Char}, '.' ∉ cs → tryPatterns L cs = (none, none) := by
  intro L
  induction L with
  | nil => intro _ cs _; rfl
  | cons ts rest ih =>
    intro hall cs hnd
    have h1 : searchAux (matchToks ts) cs = none :=
      searchAux_none_of_no_dot (hall ts (List.mem_cons_self _ _)) hnd
    simp only [tryPatterns, h1]
    exact ih (fun p hp => hall p (List.mem_cons_of_mem _ hp)) hnd

theorem tryPatterns_in_range :
    ∀ (L : List (List Tok)) (cs : List Char) (la lo : ℚ),
      tryPatterns L cs = (some la, some lo) → inRange la lo = true := by
  intro L
  induction L with
  | nil => intro cs la lo h; simp [tryPatterns] at h
  | cons ts rest ih =>
    intro cs la lo h
    simp only [tryPatterns] at h
    split at h
    · split at h
      · next hr =>
        simp only [Prod.mk.injEq, Option.some.injEq] at h
        obtain ⟨rfl, rfl⟩ := h
        exact hr
      · exact ih cs la lo h
    · exact ih cs la lo h

theorem tryPatterns_eq_firstValid :
    ∀ (L : List (List Tok)) (cs : List Char),
      tryPatterns L cs = toPairOpt (firstValid L cs) := by
  intro L
  induction L with
  | nil => intro cs; rfl
  | cons ts rest ih =>
    intro cs
    simp only [tryPatterns, firstValid, validSearch]
    cases hs : searchAux (matchToks ts) cs with
    | none => simpa [orO] using ih cs
    | some r =>
      obtain ⟨a, b⟩ := r
      by_cases hr : inRange a b = true
      · simp [hr, orO, toPairOpt]
      · simpa [hr, orO] using ih cs

theorem extract_lat_long_eq (url : String) :
    extract_lat_long url =
      toPairOpt (orO (searchAux (matchToks atSignToks) url.toList)
        (searchAux (matchToks bangToks) url.toList)) := by
  simp only [extract_lat_long]
  cases h1 : searchAux (matchToks atSignToks) url.toList with
  | some r => obtain ⟨a, b⟩ := r; simp [orO, toPairOpt]
  | none =>
    cases h2 : searchAux (matchToks bangToks) url.toList with
    | some r => obtain ⟨a, b⟩ := r; simp [orO, toPairOpt]
    | none => simp [orO, toPairOpt]

theorem hasCol_append (xs ys : Row) (c : String) :
    hasCol (xs ++ ys) c = (hasCol xs c || hasCol ys c) := by
  induction xs with
  | nil => simp [hasCol]
  | cons p t ih =>
    obtain ⟨n, v⟩ := p
    by_cases hn : n = c
    · simp [hasCol, hn]
    · simp [hasCol, hn, ih]

theorem getCol_append_left {xs : Row} {c : String} (h : hasCol xs c = true)
    (ys : Row) : getCol (xs ++ ys) c = getCol xs c := by
  induction xs with
  | nil => simp [hasCol] at h
  | cons p t ih =>
    obtain ⟨n, v⟩ := p
    by_cases hn : n = c
    · simp [getCol, hn]
    · simp only [hasCol, hn, if_false] at h
      simp [getCol, hn, ih h]

theorem getCol_of_not_has {xs : Row} {c : String} (h : hasCol xs c = false) :
    getCol xs c = Cell.na := by
  induction xs with
  | nil => rfl
  | cons p t ih =>
    obtain ⟨n, v⟩ := p
    by_cases hn : n = c
    · simp [hasCol, hn] at h
    · simp only [hasCol, hn, if_false] at h
      simp [getCol, hn, ih h]

theorem getCol_append_of_not {xs : Row} {c : String} (h : hasCol xs c = false)
    (ys : Row) : getCol (xs ++ ys) c = getCol ys c := by
  induction xs with
  | nil => rfl
  | cons p t ih =>
    obtain ⟨n, v⟩ := p
    by_cases hn : n = c
    · simp [hasCol, hn] at h
    · simp only [hasCol, hn, if_false] at h
      simp [getCol, hn, ih h]

theorem setColGo_append (xs ys : Row) (c : String) (v : Cell) :
    setColGo (xs ++ ys) c v = setColGo xs c v ++ setColGo ys c v := by
  induction xs with
  | nil => rfl
  | cons p t ih =>
    obtain ⟨n, w⟩ := p
    by_cases hn : n = c <;> simp [setColGo, hn, ih]

theorem setColGo_of_not {xs : Row} {c : String} (h : hasCol xs c = false)
    (v : Cell) : setColGo xs c v = xs := by
  induction xs with
  | nil => rfl
  | cons p t ih =>
    obtain ⟨n, w⟩ := p
    by_cases hn : n = c
    · simp [hasCol, hn] at h
    · simp only [hasCol, hn, if_false] at h
      simp [setColGo, hn, ih h]

theorem getCol_setColGo_of_has {xs : Row} {c : String}
    (h : hasCol xs c = true) (v : Cell) :
    getCol (setColGo xs c v) c = v := by
  induction xs with
  | nil => simp [hasCol] at h
  | cons p t ih =>
    obtain ⟨n, w⟩ := p
    by_cases hn : n = c
    · subst hn
      simp [setColGo, getCol]
    · simp only [hasCol, hn, if_false] at h
      simp [setColGo, getCol, hn, ih h]

theorem getCol_setCol (r : Row) (c : String) (v : Cell) :
    getCol (setCol r c v) c = v := by
  by_cases h : hasCol r c = true
  · simp only [setCol, h, if_true]
    exact getCol_setColGo_of_has h v
  · have h' : hasCol r c = false := by simpa using h
    simp only [setCol, h', Bool.false_eq_true, if_false]
    rw [getCol_append_of_not h']
    simp [getCol]

theorem rowsGet_map (f : Row → Row) (l : List Row) (i : Nat) :
    (l.map f).get? i = (l.get? i).map f := by
  induction l generalizing i with
  | nil => simp
  | cons r t ih =>
    cases i with
    | zero => rfl
    | succ j => exact ih j

theorem initForward_fresh {r0 : Row} (h1 : hasCol r0 "latitude" = false)
    (h2 : hasCol r0 "longitude" = false) :
    initForward r0 = r0 ++ [("latitude", Cell.na), ("longitude", Cell.na)] := by
  have s1 : setCol r0 "latitude" Cell.na = r0 ++ [("latitude", Cell.na)] := by
    simp [setCol, h1]
  have h2' : hasCol (r0 ++ [("latitude", Cell.na)]) "longitude" = false := by
    rw [hasCol_append, h2]
    decide
  show setCol (setCol r0 "latitude" Cell.na) "longitude" Cell.na = _
  rw [s1]
  simp [setCol, h2']

theorem initReverse_fresh {r0 : Row} (h : hasCol r0 "address" = false) :
    initReverse r0 = r0 ++ [("address", Cell.na)] := by
  simp [initReverse, setCol, h]

theorem getCol_append_na2 {r0 : Row} (c : String) :
    getCol (r0 ++ [("latitude", Cell.na), ("longitude", Cell.na)]) c =
      getCol r0 c := by
  by_cases hc : hasCol r0 c = true
  · rw [getCol_append_left hc]
  · have hc' : hasCol r0 c = false := by simpa using hc
    rw [getCol_append_of_not hc', getCol_of_not_has hc']
    by_cases e1 : "latitude" = c
    · simp [getCol, e1]
    · by_cases e2 : "longitude" = c <;> simp [getCol, e1, e2]

theorem getCol_append_na1 {r0 : Row} (c : String) :
    getCol (r0 ++ [("address", Cell.na)]) c = getCol r0 c := by
  by_cases hc : hasCol r0 c = true
  · rw [getCol_append_left hc]
  · have hc' : hasCol r0 c = false := by simpa using hc
    rw [getCol_append_of_not hc', getCol_of_not_has hc']
    by_cases e1 : "address" = c <;> simp [getCol, e1]

theorem forward_row_fresh (geo : String → Option ℚ × Option ℚ × String)
    (addrCol : String) {r0 : Row} (h1 : hasCol r0 "latitude" = false)
    (h2 : hasCol r0 "longitude" = false) :
    forward_row geo addrCol (initForward r0) =
      r0 ++ [("latitude", latOut geo addrCol r0),
             ("longitude", lngOut geo addrCol r0)] := by
  have hinit := initForward_fresh h1 h2
  have hget : getCol (initForward r0) addrCol = getCol r0 addrCol := by
    rw [hinit]; exact getCol_append_na2 addrCol
  simp only [forward_row, hget]
  by_cases hb : notBlank (getCol r0 addrCol) = true
  · have hlat : hasCol (initForward r0) "latitude" = true := by
      rw [hinit, hasCol_append, h1]
      decide
    have step1 :
        setCol (initForward r0) "latitude"
            (optCell (geo (cellStr (getCol r0 addrCol))).1) =
          r0 ++ [("latitude", optCell (geo (cellStr (getCol r0 addrCol))).1),
                 ("longitude", Cell.na)] := by
      rw [hinit]
      simp only [setCol, hasCol_append, h1, Bool.false_or]
      rw [if_pos (by decide :
            hasCol [("latitude", Cell.na), ("longitude", Cell.na)] "latitude"
              = true)]
      rw [setColGo_append, setColGo_of_not h1]
      simp [setColGo, (by decide : ("longitude" : String) ≠ "latitude")]
    have hlng : hasCol
        (r0 ++ [("latitude", optCell (geo (cellStr (getCol r0 addrCol))).1),
                ("longitude", Cell.na)]) "longitude" = true := by
      rw [hasCol_append, h2]
      simp [hasCol, (by decide : ("latitude" : String) ≠ "longitude")]
    have step2 :
        setCol (r0 ++
            [("latitude", optCell (geo (cellStr (getCol r0 addrCol))).1),
             ("longitude", Cell.na)]) "longitude"
            (optCell (geo (cellStr (getCol r0 addrCol))).2.1) =
          r0 ++ [("latitude", optCell (geo (cellStr (getCol r0 addrCol))).1),
                 ("longitude",
                  optCell (geo (cellStr (getCol r0 addrCol))).2.1)] := by
      simp only [setCol, hlng, if_true]
      rw [setColGo_append, setColGo_of_not h2]
      simp [setColGo, (by decide : ("latitude" : String) ≠ "longitude")]
    rw [if_pos hb, step1, step2]
    simp [latOut, lngOut, hb]
  · have hb' : notBlank (getCol r0 addrCol) = false := by simpa using hb
    rw [if_neg (by simp [hb'])]
    rw [hinit]
    simp [latOut, lngOut, hb']

theorem reverse_row_fresh (rev : ℚ → ℚ → String) (latCol lngCol : String)
    {r0 : Row} (h : hasCol r0 "address" = false) :
    reverse_row rev latCol lngCol (initReverse r0) =
      r0 ++ [("address", addrOut rev latCol lngCol r0)] := by
  have hinit := initReverse_fresh h
  have hla : getCol (initReverse r0) latCol = getCol r0 latCol := by
    rw [hinit]; exact getCol_append_na1 latCol
  have hlo : getCol (initReverse r0) lngCol = getCol r0 lngCol := by
    rw [hinit]; exact getCol_append_na1 lngCol
  have haddr : hasCol (initReverse r0) "address" = true := by
    rw [hinit, hasCol_append, h]
    decide
  have hset : ∀ v : Cell, setCol (initReverse r0) "address" v =
      r0 ++ [("address", v)] := by
    intro v
    rw [hinit]
    simp only [setCol, hasCol_append, h, Bool.false_or]
    rw [if_pos (by decide :
          hasCol [("address", Cell.na)] "address" = true)]
    rw [setColGo_append, setColGo_of_not h]
    simp [setColGo]
  simp only [reverse_row, hla, hlo, addrOut]
  by_cases hn : (notna (getCol r0 latCol) && notna (getCol r0 lngCol)) = true
  · rw [if_pos hn, if_pos hn]
    cases tryFloatCell (getCol r0 latCol) with
    | ok lav =>
      cases tryFloatCell (getCol r0 lngCol) with
      | ok lov => simp [hset]
      | error e => simp [hset]
    | error e =>
      cases tryFloatCell (getCol r0 lngCol) with
      | ok lov => simp [hset]
      | error e2 => simp [hset]
  · rw [if_neg hn, if_neg hn, hinit]

/-! Claim theorems. -/

/-- C1, counterexample: the claim says every coordinate pair returned by the
Coordinate Extractor, whether matched from the URL or from the HTML body, is
range-validated. The URL extractor applies no range check: on the URL
`@95.5,200.5` it returns latitude 95.5 (above 90) and longitude 200.5
(above 180). -/
theorem C1_counterexample :
    extract_lat_long ("@95.5,200.5") =
      (some (mkRat 955 10), some (mkRat 2005 10)) ∧
    ¬ ((mkRat 955 10 : ℚ) ≤ 90) ∧ ¬ ((mkRat 2005 10 : ℚ) ≤ 180) :=
  ⟨by decide, by decide, by decide⟩

/-- C1, amended: every coordinate pair returned from the HTML body satisfies
latitude ∈ [-90, 90] and longitude ∈ [-180, 180], and a pattern whose first
match fails the range check is treated as a non-match, with the next pattern
tried; pairs matched from the URL are returned without range validation. -/
theorem C1_html_range :
    (∀ (html : String) (la lo : ℚ),
        extract_lat_long_from_html html = (some la, some lo) →
        -90 ≤ la ∧ la ≤ 90 ∧ -180 ≤ lo ∧ lo ≤ 180) ∧
    (∀ (ts : List Tok) (rest : List (List Tok)) (cs : List Char) (la lo : ℚ),
        searchAux (matchToks ts) cs = some (la, lo) → inRange la lo = false →
        tryPatterns (ts :: rest) cs = tryPatterns rest cs) := by
  constructor
  · intro html la lo h
    have hr := tryPatterns_in_range htmlPatterns html.toList la lo h
    simp only [inRange, Bool.and_eq_true, decide_eq_true_eq] at hr
    exact ⟨hr.1.1, hr.1.2, hr.2.1, hr.2.2⟩
  · intro ts rest cs la lo h hr
    simp [tryPatterns, h, hr]

/-- C1, witness: the HTML pair extracted from `center=10.5,20.5` is in
range. -/
theorem C1_witness :
    -90 ≤ (mkRat 105 10 : ℚ) ∧ (mkRat 105 10 : ℚ) ≤ 90 ∧
    -180 ≤ (mkRat 205 10 : ℚ) ∧ (mkRat 205 10 : ℚ) ≤ 180 :=
  C1_html_range.1 ("center=10.5,20.5") (mkRat 105 10) (mkRat 205 10)
    (by decide)

/-- C4, counterexample: the claim says every URL containing the substring
`@12.34,56.78` yields exactly that pair. `re.search` returns the leftmost
match, so a URL with an earlier `@`-pair, such as `@1.5,2.5@12.34,56.78`,
contains the substring but yields (1.5, 2.5) instead. -/
theorem C4_counterexample :
    (∃ pre post : String,
        "@1.5,2.5@12.34,56.78" = pre ++ "@12.34,56.78" ++ post) ∧
    extract_lat_long ("@1.5,2.5@12.34,56.78") ≠
      (some (mkRat 1234 100), some (mkRat 5678 100)) ∧
    extract_lat_long ("@1.5,2.5@12.34,56.78") =
      (some (mkRat 15 10), some (mkRat 25 10)) :=
  ⟨⟨"@1.5,2.5", "", by decide⟩, by decide, by decide⟩

/-- C4, amended: whenever the leftmost `@lat,lng` match of a URL yields a
pair, the Extractor returns exactly that pair, and the `@` pattern takes
priority over any `!3d/!4d` pattern also present; in particular a URL whose
first `@` match is `@12.34,56.78` yields (12.34, 56.78). -/
theorem C4_at_priority :
    ∀ (url : String) (la lo : ℚ),
      searchAux (matchToks atSignToks) url.toList = some (la, lo) →
      extract_lat_long url = (some la, some lo) := by
  intro url la lo h
  simp only [String.toList] at h
  simp [extract_lat_long, String.toList, h]

/-- C4, witness: on a URL carrying both an `@` pair and a `!3d/!4d` pair, the
`@` pair (12.34, 56.78) wins. -/
theorem C4_witness :
    extract_lat_long ("/@12.34,56.78/data=!3d11.1!4d22.2") =
      (some (mkRat 1234 100), some (mkRat 5678 100)) :=
  C4_at_priority _ _ _ (by decide)

/-- C10, counterexample: the claim says an input with a scientific-notation
coordinate is never matched and yields NotFound. On `@1.5,2.5e3` the `@`
pattern matches the decimal mantissa prefix `@1.5,2.5`, so the Extractor
returns (1.5, 2.5) rather than NotFound. -/
theorem C10_counterexample :
    extract_lat_long ("@1.5,2.5e3") = (some (mkRat 15 10), some (mkRat 25 10))
    ∧ extract_lat_long ("@1.5,2.5e3") ≠ (none, none) :=
  ⟨by decide, by decide⟩

/-- C10, amended: every pattern requires both coordinates to carry an
explicit decimal fraction, so an input containing no decimal point at all --
in particular one whose coordinates are integers, such as `@12,77` -- is
matched by no URL or HTML pattern and the Extractor returns NotFound for it
even when the values are valid in-range coordinates. A scientific-notation
coordinate is never matched in full, but its decimal mantissa may still
match, so such inputs need not return NotFound. -/
theorem C10_no_decimal_point :
    ∀ (s : String), '.' ∉ s.toList →
      extract_lat_long s = (none, none) ∧
      extract_lat_long_from_html s = (none, none) := by
  intro s h
  constructor
  · have h1 := @searchAux_none_of_no_dot atSignToks (by decide) s.toList h
    have h2 := @searchAux_none_of_no_dot bangToks (by decide) s.toList h
    simp only [String.toList] at h1 h2
    simp [extract_lat_long, String.toList, h1, h2]
  · exact tryPatterns_none_of_no_dot htmlPatterns (by decide) h

/-- C10, witness: the integer-coordinate input `@12,77` yields NotFound from
both the URL patterns and the HTML patterns. -/
theorem C10_witness :
    extract_lat_long ("@12,77") = (none, none) ∧
    extract_lat_long_from_html ("@12,77") = (none, none) :=
  C10_no_decimal_point ("@12,77") (by decide)

/-- C8: the Forward Geocoder never raises; a network or transport failure is
returned as a result whose coordinates are null and whose URL position holds
the diagnostic string `str(e)`. -/
theorem C8_transport_failure :
    ∀ (address : String) (env : Except String (String × String)),
      (∃ la lo u, get_coordinates address env = (la, lo, u)) ∧
      (∀ e, env = Except.error e →
        get_coordinates address env = (none, none, e)) := by
  intro address env
  refine ⟨⟨_, _, _, rfl⟩, ?_⟩
  intro e he
  subst he
  rfl

/-- C8, witness: a concrete transport failure yields null coordinates and the
diagnostic string. -/
theorem C8_witness :
    get_coordinates ("Medanta Hospital Gurgaon Bridge")
        (Except.error ("ConnectionError")) =
      (none, none, "ConnectionError") :=
  (C8_transport_failure ("Medanta Hospital Gurgaon Bridge") _).2
    ("ConnectionError") rfl

/-- C2, code bug: the claim (and the intent of the raised
`HTTPException(status_code=400, ...)`) is a 400 response listing the
available columns; but the raise happens inside the `try` block, whose
`except Exception` handler catches the `HTTPException` and re-raises it as a
500 whose detail wraps `str(e)`. Both file endpoints therefore answer a
missing column with status 500, not 400. -/
theorem C2_column_missing_500 :
    geocode_file (".csv") (Except.ok (["name"], [])) ("address")
        (fun _ => (none, none, "")) =
      Except.error (500,
        "Error processing file: 400: Column 'address' not found. Available columns: name") ∧
    reverse_geocode_file (".csv") (Except.ok (["name"], [])) ("lat") ("long")
        (fun _ _ => "") =
      Except.error (500,
        "Error processing file: 400: Column 'lat' not found. Available columns: name") := by
  constructor <;> rfl

/-- C3: the Reverse Geocoder always returns a triple and never raises; when
every upstream step fails it returns exactly the synthesized placeholder
`("<lat>, <lng>", "Location at <lat>, <lng>", place URL)`, and the 404 branch
of the `/reverse-geocode` endpoints is unreachable. -/
theorem C3_reverse_never_fails :
    ∀ (latS lngS : String) (env : ReverseEnv),
      (∃ a f u, get_address_from_coordinates latS lngS env = (a, f, u)) ∧
      (allUpstreamFail env = true →
        get_address_from_coordinates latS lngS env =
          (latS ++ ", " ++ lngS, "Location at " ++ latS ++ ", " ++ lngS,
           "https://www.google.com/maps/place/" ++ latS ++ "," ++ lngS)) ∧
      (reverse_geocode_endpoint latS lngS env).1 = 200 := by
  intro latS lngS env
  obtain ⟨nom, pl⟩ := env
  refine ⟨⟨_, _, _, rfl⟩, ?_, rfl⟩
  intro h
  simp only [allUpstreamFail, Bool.and_eq_true] at h
  obtain ⟨hn, hp⟩ := h
  have hgoal : fallbackTriple latS lngS =
      (latS ++ ", " ++ lngS, "Location at " ++ latS ++ ", " ++ lngS,
       "https://www.google.com/maps/place/" ++ latS ++ "," ++ lngS) := rfl
  have hplace : placeStep latS lngS pl = fallbackTriple latS lngS := by
    cases pl with
    | error e => rfl
    | ok u =>
      have hu : searchAux placeNameAt u.toList = none := by
        simpa [Option.isNone_iff_eq_none] using hp
      simp only [String.toList] at hu
      simp [placeStep, String.toList, hu]
  cases nom with
  | error e => exact hgoal
  | ok resp =>
    simp only [Bool.not_eq_true', Bool.and_eq_false_iff] at hn
    by_cases hs : resp.status_code = 200
    · cases hd : resp.display_name with
      | some dn =>
        exfalso
        cases hn with
        | inl h200 => simp [hs] at h200
        | inr hdn => rw [hd] at hdn; simp at hdn
      | none =>
        have hstep : get_address_from_coordinates latS lngS
            ⟨Except.ok resp, pl⟩ = placeStep latS lngS pl := by
          simp [get_address_from_coordinates, hs, hd]
        rw [hstep, hplace, hgoal]
    · have hstep : get_address_from_coordinates latS lngS
          ⟨Except.ok resp, pl⟩ = placeStep latS lngS pl := by
        simp [get_address_from_coordinates, hs]
      rw [hstep, hplace, hgoal]

/-- C3, witness: with both upstream requests raising, the reverse geocoder at
(28.4391604, 77.0388113) returns the synthesized placeholder triple. -/
theorem C3_witness :
    get_address_from_coordinates ("28.4391604") ("77.0388113")
        ⟨Except.error ("timeout"), Except.error ("timeout")⟩ =
      ("28.4391604, 77.0388113", "Location at 28.4391604, 77.0388113",
       "https://www.google.com/maps/place/28.4391604,77.0388113") :=
  (C3_reverse_never_fails ("28.4391604") ("77.0388113") _).2.1 (by decide)

/-- C5: the Extractor tries its patterns in strict order -- against the URL
first the `@` pattern then the `!3d/!4d` pattern, and only if neither
matches, against the HTML body the five listed patterns in order -- and the
result is the first match of the first pattern that succeeds, with no further
disambiguation. -/
theorem C5_strict_order :
    ∀ (addr url html : String),
      get_coordinates addr (Except.ok (url, html)) =
        ((toPairOpt (specOrderedExtract url.toList html.toList)).1,
         (toPairOpt (specOrderedExtract url.toList html.toList)).2, url) := by
  intro addr url html
  simp only [get_coordinates]
  cases h1 : searchAux (matchToks atSignToks) url.toList with
  | some r =>
    obtain ⟨a, b⟩ := r
    have he : extract_lat_long url = (some a, some b) := by
      simp only [String.toList] at h1
      simp [extract_lat_long, String.toList, h1]
    simp only [String.toList] at h1
    simp [he, specOrderedExtract, orO, String.toList, h1, toPairOpt]
  | none =>
    cases h2 : searchAux (matchToks bangToks) url.toList with
    | some r =>
      obtain ⟨a, b⟩ := r
      have he : extract_lat_long url = (some a, some b) := by
        simp only [String.toList] at h1 h2
        simp [extract_lat_long, String.toList, h1, h2]
      simp only [String.toList] at h1 h2
      simp [he, specOrderedExtract, orO, String.toList, h1, h2, toPairOpt]
    | none =>
      have he : extract_lat_long url = (none, none) := by
        simp only [String.toList] at h1 h2
        simp [extract_lat_long, String.toList, h1, h2]
      have hh := tryPatterns_eq_firstValid htmlPatterns html.toList
      simp only [String.toList] at h1 h2 hh
      simp [he, extract_lat_long_from_html, hh, specOrderedExtract, orO,
        String.toList, h1, h2]

/-- C6: in batch reverse processing, a row whose latitude or longitude fails
numeric parsing gets a null address cell, every row is still processed, and
the batch is never aborted (the processing function is total and preserves
the row count). -/
theorem C6_parse_failure_continues :
    ∀ (rev : ℚ → ℚ → String) (latCol lngCol : String) (rows : List Row),
      (processReverse rev latCol lngCol rows).length = rows.length ∧
      ∀ i r0, rows.get? i = some r0 →
        (processReverse rev latCol lngCol rows).get? i =
          some (reverse_row rev latCol lngCol (initReverse r0)) ∧
        ((notna (getCol (initReverse r0) latCol) &&
            notna (getCol (initReverse r0) lngCol)) = true →
          (isOkB (tryFloatCell (getCol (initReverse r0) latCol)) = false ∨
            isOkB (tryFloatCell (getCol (initReverse r0) lngCol)) = false) →
          getCol (reverse_row rev latCol lngCol (initReverse r0)) "address" =
            Cell.na) := by
  intro rev latCol lngCol rows
  constructor
  · simp [processReverse]
  · intro i r0 h
    constructor
    · rw [show processReverse rev latCol lngCol rows =
            (rows.map initReverse).map (reverse_row rev latCol lngCol)
          from rfl, rowsGet_map, rowsGet_map, h]
      rfl
    · intro hn hf
      simp only [reverse_row]
      rw [if_pos hn]
      cases hla : tryFloatCell (getCol (initReverse r0) latCol) with
      | ok lav =>
        cases hlo : tryFloatCell (getCol (initReverse r0) lngCol) with
        | ok lov =>
          exfalso
          cases hf with
          | inl hf1 => rw [hla] at hf1; simp [isOkB] at hf1
          | inr hf2 => rw [hlo] at hf2; simp [isOkB] at hf2
        | error e => exact getCol_setCol _ _ _
      | error e =>
        cases hlo : tryFloatCell (getCol (initReverse r0) lngCol) with
        | ok lov => exact getCol_setCol _ _ _
        | error e2 => exact getCol_setCol _ _ _

/-- C6, witness: a concrete row whose latitude cell is the unparsable string
`abc` gets a null address cell. -/
theorem C6_witness :
    getCol (reverse_row (fun _ _ => "X") ("lat") ("lng")
        (initReverse [("lat", Cell.str ("abc")), ("lng", Cell.num 5)]))
      "address" = Cell.na := by
  have h := C6_parse_failure_continues (fun _ _ => "X") ("lat") ("lng")
    [[("lat", Cell.str ("abc")), ("lng", Cell.num 5)]]
  exact (h.2 0 _ rfl).2 (by decide) (Or.inl (by decide))

/-- C7, counterexample: the claim says batch processing preserves all
original columns and values, only appending new columns. The pandas column
assignment that initializes the derived `latitude` column overwrites an
existing column of that name in place, so a dataset already carrying a
`latitude` column loses its original values: the processed row is not the
original row followed by appended cells. -/
theorem C7_counterexample :
    processForward (fun _ => (none, none, "")) ("addr")
        [[("addr", Cell.str ("x")), ("latitude", Cell.num 1)]] =
      [[("addr", Cell.str ("x")), ("latitude", Cell.na),
        ("longitude", Cell.na)]] ∧
    ¬ ∃ extra : Row,
        [(("addr" : String), Cell.str ("x")), ("latitude", Cell.na),
         ("longitude", Cell.na)] =
          [(("addr" : String), Cell.str ("x")), ("latitude", Cell.num 1)]
            ++ extra := by
  refine ⟨by decide, ?_⟩
  rintro ⟨extra, hex⟩
  simp at hex

/-- C7, amended: provided none of the appended column names (`latitude` and
`longitude` for forward processing, `address` for reverse processing) already
occurs in the dataset, batch processing preserves the row order and all
original columns and values, only appending the new columns; a forward row
whose address cell is missing or blank, and a reverse row whose coordinate
cells are missing, are skipped with their derived cells left null, while the
other rows are processed. -/
theorem C7_frame :
    (∀ (geo : String → Option ℚ × Option ℚ × String) (addrCol : String)
        (rows : List Row),
      (∀ r, r ∈ rows →
          hasCol r "latitude" = false ∧ hasCol r "longitude" = false) →
      (processForward geo addrCol rows).length = rows.length ∧
      ∀ i r0, rows.get? i = some r0 →
        (processForward geo addrCol rows).get? i =
          some (r0 ++ [("latitude", latOut geo addrCol r0),
                       ("longitude", lngOut geo addrCol r0)])) ∧
    (∀ (rev : ℚ → ℚ → String) (latCol lngCol : String) (rows : List Row),
      (∀ r, r ∈ rows → hasCol r "address" = false) →
      (processReverse rev latCol lngCol rows).length = rows.length ∧
      ∀ i r0, rows.get? i = some r0 →
        (processReverse rev latCol lngCol rows).get? i =
          some (r0 ++ [("address", addrOut rev latCol lngCol r0)])) := by
  constructor
  · intro geo addrCol rows hfresh
    constructor
    · simp [processForward]
    · intro i r0 h
      have hf := hfresh r0 (List.get?_mem h)
      rw [show processForward geo addrCol rows =
            (rows.map initForward).map (forward_row geo addrCol)
          from rfl, rowsGet_map, rowsGet_map, h]
      simp only [Option.map_some']
      rw [forward_row_fresh geo addrCol hf.1 hf.2]
  · intro rev latCol lngCol rows hfresh
    constructor
    · simp [processReverse]
    · intro i r0 h
      have hf := hfresh r0 (List.get?_mem h)
      rw [show processReverse rev latCol lngCol rows =
            (rows.map initReverse).map (reverse_row rev latCol lngCol)
          from rfl, rowsGet_map, rowsGet_map, h]
      simp only [Option.map_some']
      rw [reverse_row_fresh rev latCol lngCol hf]

/-- C7, witness: on a two-row dataset with a blank second address, the
processed frame keeps both original rows in order and appends null derived
cells to the blank row. -/
theorem C7_witness :
    (processForward (fun _ => (some (1 : ℚ), some (2 : ℚ), "u")) ("a")
        [[("a", Cell.str ("x"))], [("a", Cell.na)]]).length = 2 ∧
    (processForward (fun _ => (some (1 : ℚ), some (2 : ℚ), "u")) ("a")
        [[("a", Cell.str ("x"))], [("a", Cell.na)]]).get? 1 =
      some ([("a", Cell.na)] ++
        [("latitude", Cell.na), ("longitude", Cell.na)]) := by
  have h := C7_frame.1 (fun _ => (some (1 : ℚ), some (2 : ℚ), "u")) ("a")
    [[("a", Cell.str ("x"))], [("a", Cell.na)]] (by decide)
  refine ⟨h.1, ?_⟩
  have h2 := h.2 1 [("a", Cell.na)] rfl
  rw [h2]
  decide

/-- C9: the Address Formatter appends, in fixed priority order, the first
present component of each group -- (building OR house_number), (road OR
neighbourhood), suburb, (city OR town OR village), postcode, state, country
-- joins the present parts with a comma separator, and returns the raw
display name when no component is present. -/
theorem C9_formatter_groups :
    ∀ (a : AddrComponents) (display_name : String),
      formatted_address a display_name =
        formatted_address_spec a display_name := by
  intro a dn
  have hp : formatted_parts a = (specGroups a).filterMap groupPick := by
    have g1 : ∀ o : Option String, pick1 o = (groupPick [o]).toList := by
      intro o
      cases h : tstr o <;> simp [pick1, groupPick, h]
    have g2 : ∀ o1 o2 : Option String,
        pick2 o1 o2 = (groupPick [o1, o2]).toList := by
      intro o1 o2
      cases h : tstr o1 <;> simp [pick2, groupPick, h, g1]
    have g3 : ∀ o1 o2 o3 : Option String,
        pick3 o1 o2 o3 = (groupPick [o1, o2, o3]).toList := by
      intro o1 o2 o3
      cases h : tstr o1 <;> simp [pick3, groupPick, h, g2]
    simp only [formatted_parts, specGroups, g1, g2, g3]
    cases hb : groupPick [a.building, a.house_number] <;>
      cases hr : groupPick [a.road, a.neighbourhood] <;>
      cases hsb : groupPick [a.suburb] <;>
      cases hc : groupPick [a.city, a.town, a.village] <;>
      cases hpc : groupPick [a.postcode] <;>
      cases hst : groupPick [a.state] <;>
      cases hco : groupPick [a.country] <;>
      simp [List.filterMap_cons, hb, hr, hsb, hc, hpc, hst, hco]
  simp only [formatted_address, formatted_address_spec, hp]

